import Mathlib

/-!
Verification of the helix plugin host against its specification.

This development gives a shallow embedding of the plugin-host core:

* the wire protocol types of `helix-plugin-sdk/src/lib.rs` (`protocol`
  module) together with their serde JSON encoding and decoding semantics,
* the plugin manager of `helix-plugin-host/src/server.rs`
  (`ensure_initialized`, `register_plugin`, `execute_command`,
  `shutdown_all`),
* the per-process machinery of `helix-plugin-host/src/plugin.rs`
  (`send_request` id allocation and the pending map, the stdout reader
  task and `drain_pending_with_failure`, `resolve_command`,
  `resolve_relative`, environment construction in `spawn`),
* the plugin-side event loop of `helix-plugin-sdk` (`runtime::run`).

Effectful operations (process spawning, pipe writes, handshakes) are
modelled by passing their outcomes in as explicit parameters; the pure
control flow around them is translated from the source.
-/

/-- A JSON value, modelling `serde_json::Value`.  Numbers are modelled as
integers; the claims settled here do not depend on non-integral numbers. -/
inductive Json where
  | null
  | bool (b : Bool)
  | num (n : Int)
  | str (s : String)
  | arr (elems : List Json)
  | obj (fields : List (String × Json))
  deriving Repr

mutual

/-- Decidable equality for `Json` (the nested lists prevent deriving it). -/
def Json.decEq : (a b : Json) → Decidable (a = b)
  | .null, .null => isTrue rfl
  | .bool a, .bool b =>
      if h : a = b then isTrue (by rw [h])
      else isFalse (fun hh => by cases hh; exact h rfl)
  | .num a, .num b =>
      if h : a = b then isTrue (by rw [h])
      else isFalse (fun hh => by cases hh; exact h rfl)
  | .str a, .str b =>
      if h : a = b then isTrue (by rw [h])
      else isFalse (fun hh => by cases hh; exact h rfl)
  | .arr xs, .arr ys =>
      match Json.decEqList xs ys with
      | isTrue h => isTrue (by rw [h])
      | isFalse h => isFalse (fun hh => by cases hh; exact h rfl)
  | .obj xs, .obj ys =>
      match Json.decEqFields xs ys with
      | isTrue h => isTrue (by rw [h])
      | isFalse h => isFalse (fun hh => by cases hh; exact h rfl)
  | .null, .bool _ | .null, .num _ | .null, .str _ | .null, .arr _ | .null, .obj _
  | .bool _, .null | .bool _, .num _ | .bool _, .str _ | .bool _, .arr _ | .bool _, .obj _
  | .num _, .null | .num _, .bool _ | .num _, .str _ | .num _, .arr _ | .num _, .obj _
  | .str _, .null | .str _, .bool _ | .str _, .num _ | .str _, .arr _ | .str _, .obj _
  | .arr _, .null | .arr _, .bool _ | .arr _, .num _ | .arr _, .str _ | .arr _, .obj _
  | .obj _, .null | .obj _, .bool _ | .obj _, .num _ | .obj _, .str _ | .obj _, .arr _ =>
      isFalse (fun h => by cases h)

/-- Decidable equality for lists of `Json`. -/
def Json.decEqList : (xs ys : List Json) → Decidable (xs = ys)
  | [], [] => isTrue rfl
  | [], _ :: _ => isFalse (fun h => by cases h)
  | _ :: _, [] => isFalse (fun h => by cases h)
  | x :: xs, y :: ys =>
      match Json.decEq x y, Json.decEqList xs ys with
      | isTrue h1, isTrue h2 => isTrue (by rw [h1, h2])
      | isFalse h1, _ => isFalse (fun hh => by cases hh; exact h1 rfl)
      | _, isFalse h2 => isFalse (fun hh => by cases hh; exact h2 rfl)

/-- Decidable equality for `Json` object field lists. -/
def Json.decEqFields : (xs ys : List (String × Json)) → Decidable (xs = ys)
  | [], [] => isTrue rfl
  | [], _ :: _ => isFalse (fun h => by cases h)
  | _ :: _, [] => isFalse (fun h => by cases h)
  | (k, v) :: xs, (k2, v2) :: ys =>
      if h1 : k = k2 then
        match Json.decEq v v2, Json.decEqFields xs ys with
        | isTrue h2, isTrue h3 => isTrue (by rw [h1, h2, h3])
        | isFalse h2, _ => isFalse (fun hh => by cases hh; exact h2 rfl)
        | _, isFalse h3 => isFalse (fun hh => by cases hh; exact h3 rfl)
      else isFalse (fun hh => by cases hh; exact h1 rfl)

end

instance : DecidableEq Json := Json.decEq

/-- Decidable equality for `Except` results. -/
instance {ε γ : Type} [DecidableEq ε] [DecidableEq γ] : DecidableEq (Except ε γ) := fun a b =>
  match a, b with
  | .error e1, .error e2 =>
      if h : e1 = e2 then isTrue (by rw [h])
      else isFalse (fun hh => by cases hh; exact h rfl)
  | .ok v1, .ok v2 =>
      if h : v1 = v2 then isTrue (by rw [h])
      else isFalse (fun hh => by cases hh; exact h rfl)
  | .error _, .ok _ => isFalse (fun h => by cases h)
  | .ok _, .error _ => isFalse (fun h => by cases h)

/-- Severity levels of `protocol::MessageLevel`. -/
inductive MessageLevel where
  | error
  | warning
  | info
  | log
  deriving Repr, DecidableEq

/-- `protocol::PluginCommand`: a command exported by a plugin. -/
structure PluginCommand where
  id : String
  title : String
  description : Option String
  deriving Repr, DecidableEq

/-- `protocol::HostRequestPayload`: host → plugin request payload variants. -/
inductive HostRequestPayload where
  | Initialize (workspace_root : Option String)
  | Execute (command : String) (arguments : List Json)
  | Shutdown
  deriving Repr, DecidableEq

/-- `protocol::HostRequest`: the request envelope (`id` is a `u64`). -/
structure HostRequest where
  id : Nat
  payload : HostRequestPayload
  deriving Repr, DecidableEq

/-- `protocol::PluginResponse`: response kinds emitted by a plugin. -/
inductive PluginResponse where
  | Initialized (commands : List PluginCommand)
  | CommandResult (result : Option Json)
  | CommandError (message : String)
  | Acknowledge
  deriving Repr, DecidableEq

/-- `protocol::PluginEvent`: out-of-band events emitted by a plugin. -/
inductive PluginEvent where
  | ShowMessage (level : MessageLevel) (message : String)
  | Log (level : MessageLevel) (message : String)
  deriving Repr, DecidableEq

/-- `protocol::PluginMessage`: plugin → host messages. -/
inductive PluginMessage where
  | Response (id : Nat) (result : PluginResponse)
  | Event (event : PluginEvent)
  deriving Repr, DecidableEq

/-! ## Serialization (serde `Serialize` derive semantics)

`MessageLevel` is externally tagged with `rename_all = "snake_case"`, so a
unit variant serializes as its snake_case name.  The other enums carry
`#[serde(tag = "type", rename_all = "snake_case")]` (internal tagging).
`PluginCommand.description` has `skip_serializing_if = "Option::is_none"`. -/

/-- Encode a `MessageLevel` (externally tagged unit variants). -/
def encMessageLevel : MessageLevel → Json
  | .error => .str "error"
  | .warning => .str "warning"
  | .info => .str "info"
  | .log => .str "log"

/-- Encode an `Option<String>` field (no skip attribute): `None` is `null`. -/
def encOptString : Option String → Json
  | none => .null
  | some s => .str s

/-- Encode an `Option<Value>` field (no skip attribute): `None` is `null`,
`Some(v)` is `v` itself. -/
def encOptValue : Option Json → Json
  | none => .null
  | some v => v

/-- Encode a `PluginCommand`; `description: None` is skipped. -/
def encPluginCommand (c : PluginCommand) : Json :=
  .obj ([("id", .str c.id), ("title", .str c.title)] ++
    (match c.description with
     | none => []
     | some d => [("description", Json.str d)]))

/-- Encode a `HostRequestPayload` (internally tagged on `"type"`). -/
def encHostRequestPayload : HostRequestPayload → Json
  | .Initialize w => .obj [("type", .str "initialize"), ("workspace_root", encOptString w)]
  | .Execute c a => .obj [("type", .str "execute"), ("command", .str c), ("arguments", .arr a)]
  | .Shutdown => .obj [("type", .str "shutdown")]

/-- Encode a `HostRequest`. -/
def encHostRequest (r : HostRequest) : Json :=
  .obj [("id", .num r.id), ("payload", encHostRequestPayload r.payload)]

/-- Encode a `PluginResponse` (internally tagged on `"type"`). -/
def encPluginResponse : PluginResponse → Json
  | .Initialized cmds => .obj [("type", .str "initialized"), ("commands", .arr (cmds.map encPluginCommand))]
  | .CommandResult r => .obj [("type", .str "command_result"), ("result", encOptValue r)]
  | .CommandError m => .obj [("type", .str "command_error"), ("message", .str m)]
  | .Acknowledge => .obj [("type", .str "acknowledge")]

/-- Encode a `PluginEvent` (internally tagged on `"type"`). -/
def encPluginEvent : PluginEvent → Json
  | .ShowMessage l m => .obj [("type", .str "show_message"), ("level", encMessageLevel l), ("message", .str m)]
  | .Log l m => .obj [("type", .str "log"), ("level", encMessageLevel l), ("message", .str m)]

/-- Encode a `PluginMessage` (internally tagged on `"type"`). -/
def encPluginMessage : PluginMessage → Json
  | .Response i r => .obj [("type", .str "response"), ("id", .num i), ("result", encPluginResponse r)]
  | .Event e => .obj [("type", .str "event"), ("event", encPluginEvent e)]

/-! ## Deserialization (serde `Deserialize` derive semantics)

None of the protocol types carries `#[serde(deny_unknown_fields)]`, so the
derived deserializers skip unknown fields.  A known field occurring twice is
a `duplicate field` error; a missing field without `#[serde(default)]` is a
`missing field` error.  Internally tagged enums locate the `"type"` field
(erroring on a duplicate tag) and decode the variant from the remaining
fields; unit variants ignore the remaining content.  Only JSON-object
inputs are modelled for structs and tagged enums (the claims settled here
only concern object-shaped lines); failures are collapsed to `none`. -/

/-- serde `u64` deserialization: a JSON number in `[0, 2^64)`. -/
def decU64 : Json → Option Nat
  | .num n => if 0 ≤ n ∧ n < (2 : Int) ^ 64 then some n.toNat else none
  | _ => none

/-- serde `String` deserialization. -/
def decString : Json → Option String
  | .str s => some s
  | _ => none

/-- serde `Option<String>` deserialization: `null` is `None`. -/
def decOptString : Json → Option (Option String)
  | .null => some none
  | .str s => some (some s)
  | _ => none

/-- serde `Option<Value>` deserialization: `null` is `None`, anything else
is `Some` of itself. -/
def decOptValue : Json → Option (Option Json)
  | .null => some none
  | v => some (some v)

/-- serde `MessageLevel` deserialization (externally tagged unit variants). -/
def decMessageLevel : Json → Option MessageLevel
  | .str "error" => some .error
  | .str "warning" => some .warning
  | .str "info" => some .info
  | .str "log" => some .log
  | _ => none

/-- Worker for `extractTag`: scan the fields for the `"type"` tag, buffering
the other fields in order.  A second `"type"` field is a duplicate-tag
error; a non-string tag or a missing tag is an error. -/
def extractTagGo (tag : Option String) (acc : List (String × Json)) :
    List (String × Json) → Option (String × List (String × Json))
  | [] =>
      match tag with
      | some t => some (t, acc)
      | none => none
  | (k, v) :: rest =>
      if k = "type" then
        match tag with
        | some _ => none
        | none =>
            match v with
            | .str t => extractTagGo (some t) acc rest
            | _ => none
      else extractTagGo tag (acc ++ [(k, v)]) rest

/-- Locate the internal tag `"type"` of a tagged-enum JSON object and return
it with the remaining (non-tag) fields. -/
def extractTag (fields : List (String × Json)) : Option (String × List (String × Json)) :=
  extractTagGo none [] fields

/-- Field loop of the derived `PluginCommand` deserializer.  `description`
has `#[serde(default)]`. -/
def decPluginCommandFields : List (String × Json) → Option String → Option String →
    Option (Option String) → Option PluginCommand
  | [], i?, t?, d? =>
      match i?, t? with
      | some i, some t => some ⟨i, t, d?.getD none⟩
      | _, _ => none
  | (k, v) :: rest, i?, t?, d? =>
      if k = "id" then
        if i?.isSome then none
        else
          match decString v with
          | some s => decPluginCommandFields rest (some s) t? d?
          | none => none
      else if k = "title" then
        if t?.isSome then none
        else
          match decString v with
          | some s => decPluginCommandFields rest i? (some s) d?
          | none => none
      else if k = "description" then
        if d?.isSome then none
        else
          match decOptString v with
          | some d => decPluginCommandFields rest i? t? (some d)
          | none => none
      else decPluginCommandFields rest i? t? d?

/-- Decode a `PluginCommand` from a JSON object. -/
def decPluginCommand : Json → Option PluginCommand
  | .obj fields => decPluginCommandFields fields none none none
  | _ => none

/-- Decode a `Vec<PluginCommand>` element-wise, propagating failure. -/
def decPluginCommands : List Json → Option (List PluginCommand)
  | [] => some []
  | j :: rest =>
      match decPluginCommand j, decPluginCommands rest with
      | some c, some cs => some (c :: cs)
      | _, _ => none

/-- Field loop of the `initialize` variant of `HostRequestPayload`
(`workspace_root` is required). -/
def decInitializeFields : List (String × Json) → Option (Option String) → Option HostRequestPayload
  | [], w? =>
      match w? with
      | some w => some (.Initialize w)
      | none => none
  | (k, v) :: rest, w? =>
      if k = "workspace_root" then
        if w?.isSome then none
        else
          match decOptString v with
          | some w => decInitializeFields rest (some w)
          | none => none
      else decInitializeFields rest w?

/-- Field loop of the `execute` variant of `HostRequestPayload`
(`arguments` has `#[serde(default)]`). -/
def decExecuteFields : List (String × Json) → Option String → Option (List Json) →
    Option HostRequestPayload
  | [], c?, a? =>
      match c? with
      | some c => some (.Execute c (a?.getD []))
      | none => none
  | (k, v) :: rest, c?, a? =>
      if k = "command" then
        if c?.isSome then none
        else
          match decString v with
          | some c => decExecuteFields rest (some c) a?
          | none => none
      else if k = "arguments" then
        if a?.isSome then none
        else
          match v with
          | .arr xs => decExecuteFields rest c? (some xs)
          | _ => none
      else decExecuteFields rest c? a?

/-- Decode a `HostRequestPayload` (internally tagged on `"type"`). -/
def decHostRequestPayload : Json → Option HostRequestPayload
  | .obj fields =>
      match extractTag fields with
      | some (t, rest) =>
          if t = "initialize" then decInitializeFields rest none
          else if t = "execute" then decExecuteFields rest none none
          else if t = "shutdown" then some .Shutdown
          else none
      | none => none
  | _ => none

/-- Field loop of the `HostRequest` envelope (`id` and `payload` required). -/
def decHostRequestFields : List (String × Json) → Option Nat → Option HostRequestPayload →
    Option HostRequest
  | [], i?, p? =>
      match i?, p? with
      | some i, some p => some ⟨i, p⟩
      | _, _ => none
  | (k, v) :: rest, i?, p? =>
      if k = "id" then
        if i?.isSome then none
        else
          match decU64 v with
          | some i => decHostRequestFields rest (some i) p?
          | none => none
      else if k = "payload" then
        if p?.isSome then none
        else
          match decHostRequestPayload v with
          | some p => decHostRequestFields rest i? (some p)
          | none => none
      else decHostRequestFields rest i? p?

/-- Decode a `HostRequest` from a JSON object. -/
def decHostRequest : Json → Option HostRequest
  | .obj fields => decHostRequestFields fields none none
  | _ => none

/-- Field loop of the `initialized` variant of `PluginResponse`
(`commands` is required). -/
def decInitializedFields : List (String × Json) → Option (List PluginCommand) → Option PluginResponse
  | [], c? =>
      match c? with
      | some cs => some (.Initialized cs)
      | none => none
  | (k, v) :: rest, c? =>
      if k = "commands" then
        if c?.isSome then none
        else
          match v with
          | .arr xs =>
              match decPluginCommands xs with
              | some cs => decInitializedFields rest (some cs)
              | none => none
          | _ => none
      else decInitializedFields rest c?

/-- Field loop of the `command_result` variant of `PluginResponse`
(`result` has `#[serde(default)]`; `null` decodes to `None`). -/
def decCommandResultFields : List (String × Json) → Option (Option Json) → Option PluginResponse
  | [], r? => some (.CommandResult (r?.getD none))
  | (k, v) :: rest, r? =>
      if k = "result" then
        if r?.isSome then none
        else
          match decOptValue v with
          | some r => decCommandResultFields rest (some r)
          | none => none
      else decCommandResultFields rest r?

/-- Field loop of the `command_error` variant of `PluginResponse`
(`message` is required). -/
def decCommandErrorFields : List (String × Json) → Option String → Option PluginResponse
  | [], m? =>
      match m? with
      | some m => some (.CommandError m)
      | none => none
  | (k, v) :: rest, m? =>
      if k = "message" then
        if m?.isSome then none
        else
          match decString v with
          | some m => decCommandErrorFields rest (some m)
          | none => none
      else decCommandErrorFields rest m?

/-- Decode a `PluginResponse` (internally tagged on `"type"`). -/
def decPluginResponse : Json → Option PluginResponse
  | .obj fields =>
      match extractTag fields with
      | some (t, rest) =>
          if t = "initialized" then decInitializedFields rest none
          else if t = "command_result" then decCommandResultFields rest none
          else if t = "command_error" then decCommandErrorFields rest none
          else if t = "acknowledge" then some .Acknowledge
          else none
      | none => none
  | _ => none

/-- Field loop shared by the two `PluginEvent` variants (`level` and
`message` are required; `mk` is the variant constructor). -/
def decEventFields (mk : MessageLevel → String → PluginEvent) :
    List (String × Json) → Option MessageLevel → Option String → Option PluginEvent
  | [], l?, m? =>
      match l?, m? with
      | some l, some m => some (mk l m)
      | _, _ => none
  | (k, v) :: rest, l?, m? =>
      if k = "level" then
        if l?.isSome then none
        else
          match decMessageLevel v with
          | some l => decEventFields mk rest (some l) m?
          | none => none
      else if k = "message" then
        if m?.isSome then none
        else
          match decString v with
          | some m => decEventFields mk rest l? (some m)
          | none => none
      else decEventFields mk rest l? m?

/-- Decode a `PluginEvent` (internally tagged on `"type"`). -/
def decPluginEvent : Json → Option PluginEvent
  | .obj fields =>
      match extractTag fields with
      | some (t, rest) =>
          if t = "show_message" then decEventFields .ShowMessage rest none none
          else if t = "log" then decEventFields .Log rest none none
          else none
      | none => none
  | _ => none

/-- Field loop of the `response` variant of `PluginMessage`
(`id` and `result` are required). -/
def decResponseFields : List (String × Json) → Option Nat → Option PluginResponse →
    Option PluginMessage
  | [], i?, r? =>
      match i?, r? with
      | some i, some r => some (.Response i r)
      | _, _ => none
  | (k, v) :: rest, i?, r? =>
      if k = "id" then
        if i?.isSome then none
        else
          match decU64 v with
          | some i => decResponseFields rest (some i) r?
          | none => none
      else if k = "result" then
        if r?.isSome then none
        else
          match decPluginResponse v with
          | some r => decResponseFields rest i? (some r)
          | none => none
      else decResponseFields rest i? r?

/-- Field loop of the `event` variant of `PluginMessage` (`event` required). -/
def decEventMsgFields : List (String × Json) → Option PluginEvent → Option PluginMessage
  | [], e? =>
      match e? with
      | some e => some (.Event e)
      | none => none
  | (k, v) :: rest, e? =>
      if k = "event" then
        if e?.isSome then none
        else
          match decPluginEvent v with
          | some e => decEventMsgFields rest (some e)
          | none => none
      else decEventMsgFields rest e?

/-- Decode a `PluginMessage` (internally tagged on `"type"`): the host-side
decoding step `serde_json::from_str::<PluginMessage>` applied to an inbound
line already parsed into a JSON value. -/
def decPluginMessage : Json → Option PluginMessage
  | .obj fields =>
      match extractTag fields with
      | some (t, rest) =>
          if t = "response" then decResponseFields rest none none
          else if t = "event" then decEventMsgFields rest none
          else none
      | none => none
  | _ => none

/-- A `PluginResponse` whose wire encoding is injective: every value except
`CommandResult (Some Null)`, whose encoding collides with
`CommandResult None`. -/
def goodPluginResponse (r : PluginResponse) : Prop :=
  r ≠ .CommandResult (some .null)

/-- A `PluginMessage` that corresponds to a Rust value (`u64` id) and whose
contained response is injectively encoded. -/
def goodPluginMessage : PluginMessage → Prop
  | .Response i r => i < 2 ^ 64 ∧ goodPluginResponse r
  | .Event _ => True

instance (r : PluginResponse) : Decidable (goodPluginResponse r) :=
  inferInstanceAs (Decidable (r ≠ .CommandResult (some .null)))

instance (m : PluginMessage) : Decidable (goodPluginMessage m) :=
  match m with
  | .Response _ _ => inferInstanceAs (Decidable (_ ∧ _))
  | .Event _ => inferInstanceAs (Decidable True)

/-- Append one extra field to a JSON object (identity on other values). -/
def addField : Json → String → Json → Json
  | .obj fields, k, v => .obj (fields ++ [(k, v)])
  | j, _, _ => j

/-! ## Manifest entries and the plugin manager (`helix-plugin-host/src/server.rs`)

The manager is modelled over an abstract process-handle type `β` (standing
for `PluginProcess`).  Effectful steps — spawning and the handshake
round-trip `send_request(Initialize …)` — are passed in as functions giving
their outcomes.  `HashMap` is modelled as an association list with unique
keys, insertion replacing in place; `HashMap` iteration order of an entry's
`env` is arbitrary, which the list order quantifies over. -/

/-- `manifest::PluginEntry`: one declared plugin. -/
structure PluginEntry where
  name : String
  command : String
  args : List String
  env : List (String × String)
  cwd : Option String
  deriving Repr, DecidableEq

/-- `server::CommandBinding`: a registered command's owning process handle
plus metadata. -/
structure CommandBinding (β : Type) where
  plugin : β
  title : String
  description : Option String
  deriving Repr, DecidableEq

/-- The mutable state of `server::PluginManager`. -/
structure ManagerState (β : Type) where
  plugins : List (String × β)
  commands : List (String × CommandBinding β)
  initialized : Bool
  deriving Repr, DecidableEq

/-- `HashMap::insert` on an association list: replace in place if the key is
present, otherwise append. -/
def hashInsert {γ : Type} (m : List (String × γ)) (k : String) (v : γ) : List (String × γ) :=
  if m.any (fun kv => kv.1 == k) then m.map (fun kv => if kv.1 == k then (k, v) else kv)
  else m ++ [(k, v)]

/-- `HashMap::get` on an association list. -/
def hashGet {γ : Type} (m : List (String × γ)) (k : String) : Option γ :=
  (m.find? (fun kv => kv.1 == k)).map (fun kv => kv.2)

/-- `PluginManager::lookup_command`. -/
def lookupCommand {β : Type} (st : ManagerState β) (name : String) : Option (CommandBinding β) :=
  hashGet st.commands name

/-- `PluginManager::register_plugin`, given the outcome of the handshake
`send_request(Initialize …)`.  A transport error is wrapped with context and
propagated (the `?` in `ensure_initialized`); a non-`Initialized` response
is a logged warning and returns with the state unchanged — in particular
the plugin is *not* pushed onto `plugins`; an `Initialized` response
registers every command (later registrations overriding) and pushes the
plugin. -/
def register_plugin {β : Type} (st : ManagerState β) (entry : PluginEntry) (process : β)
    (response : Except String PluginResponse) : Except String (ManagerState β) :=
  match response with
  | .error e =>
      .error ("plugin `" ++ entry.name ++ "` failed initialization handshake: " ++ e)
  | .ok (.Initialized cmds) =>
      let commands := cmds.foldl
        (fun acc c => hashInsert acc c.id ⟨process, c.title, c.description⟩) st.commands
      .ok { st with commands := commands, plugins := st.plugins ++ [(entry.name, process)] }
  | .ok _ => .ok st

/-- The per-entry loop of `PluginManager::ensure_initialized`: a spawn
failure is logged and the entry skipped; a `register_plugin` error is
propagated by `?`, aborting the loop.  After the loop, `initialized` is
set. -/
def spawnAll {β : Type} (spawn : PluginEntry → Except String β)
    (handshake : β → Except String PluginResponse) :
    ManagerState β → List PluginEntry → Except String (ManagerState β)
  | st, [] => .ok { st with initialized := true }
  | st, entry :: rest =>
      match spawn entry with
      | .error _ => spawnAll spawn handshake st rest
      | .ok process =>
          match register_plugin st entry process (handshake process) with
          | .error e => .error e
          | .ok st' => spawnAll spawn handshake st' rest

/-- `PluginManager::ensure_initialized`, given the manifest-load outcome and
the spawn/handshake outcomes.  Idempotent: a second call is a no-op.  On a
fresh call the plugin list and command registry are cleared before the
per-entry loop. -/
def ensure_initialized {β : Type} (spawn : PluginEntry → Except String β)
    (handshake : β → Except String PluginResponse)
    (manifest : Except String (List PluginEntry)) (st : ManagerState β) :
    Except String (ManagerState β) :=
  if st.initialized then .ok st
  else
    match manifest with
    | .error e => .error e
    | .ok entries => spawnAll spawn handshake { st with plugins := [], commands := [] } entries

/-- An entry survives `ensure_initialized` into the manager's plugin list
exactly when its spawn succeeded and its handshake returned `Initialized`. -/
def handshakeRegistered {β : Type} (spawn : PluginEntry → Except String β)
    (handshake : β → Except String PluginResponse) (e : PluginEntry) : Bool :=
  match spawn e with
  | .ok p =>
      match handshake p with
      | .ok (.Initialized _) => true
      | _ => false
  | .error _ => false

/-- `PluginManager::shutdown_all`: returns the process handles that receive
a shutdown request, in declared order, together with the cleared state. -/
def shutdown_all {β : Type} (st : ManagerState β) : List β × ManagerState β :=
  (st.plugins.map Prod.snd, { plugins := [], commands := [], initialized := false })

/-- `PluginManager::command_names`. -/
def command_names {β : Type} (st : ManagerState β) : List String :=
  st.commands.map Prod.fst

/-! ## JSON-RPC errors and `executeCommand` dispatch -/

/-- The two `tower_lsp::jsonrpc::ErrorCode`s used by the host. -/
inductive ErrorCode where
  | methodNotFound
  | internalError
  deriving Repr, DecidableEq

/-- A JSON-RPC error as built by the host. -/
structure RpcError where
  code : ErrorCode
  message : String
  deriving Repr, DecidableEq

/-- `server::internal_error`. -/
def internal_error (message : String) : RpcError :=
  ⟨.internalError, message⟩

/-- `server::method_not_found`. -/
def method_not_found (command : String) : RpcError :=
  ⟨.methodNotFound, "command `" ++ command ++ "` not registered"⟩

/-- `Option<String>` rendered as Rust's derived `Debug` does. -/
def debugOptString : Option String → String
  | none => "None"
  | some s => "Some(\"" ++ s ++ "\")"

/-- `PluginCommand` rendered as Rust's derived `Debug` does. -/
def debugPluginCommand (c : PluginCommand) : String :=
  "PluginCommand \x7b id: \"" ++ c.id ++ "\", title: \"" ++ c.title ++
    "\", description: " ++ debugOptString c.description ++ " \x7d"

mutual

/-- `serde_json::Value` rendered as its `Debug` implementation does
(string escaping is not modelled; no settled claim depends on it). -/
def debugJson : Json → String
  | .null => "Null"
  | .bool b => "Bool(" ++ (if b then "true" else "false") ++ ")"
  | .num n => "Number(" ++ toString n ++ ")"
  | .str s => "String(\"" ++ s ++ "\")"
  | .arr xs => "Array [" ++ debugJsonList xs ++ "]"
  | .obj fs => "Object \x7b" ++ debugJsonFields fs ++ "\x7d"

/-- Comma-separated `Debug` rendering of a list of values. -/
def debugJsonList : List Json → String
  | [] => ""
  | [x] => debugJson x
  | x :: rest => debugJson x ++ ", " ++ debugJsonList rest

/-- Comma-separated `Debug` rendering of object entries. -/
def debugJsonFields : List (String × Json) → String
  | [] => ""
  | [(k, v)] => "\"" ++ k ++ "\": " ++ debugJson v
  | (k, v) :: rest => "\"" ++ k ++ "\": " ++ debugJson v ++ ", " ++ debugJsonFields rest

end

/-- `Option<Value>` rendered as Rust's derived `Debug` does. -/
def debugOptJson : Option Json → String
  | none => "None"
  | some v => "Some(" ++ debugJson v ++ ")"

/-- `PluginResponse` rendered as Rust's derived `Debug` does (the `{other:?}`
interpolation in `execute_command`). -/
def debugPluginResponse : PluginResponse → String
  | .Initialized cmds =>
      "Initialized \x7b commands: [" ++
        String.intercalate ", " (cmds.map debugPluginCommand) ++ "] \x7d"
  | .CommandResult r => "CommandResult \x7b result: " ++ debugOptJson r ++ " \x7d"
  | .CommandError m => "CommandError \x7b message: \"" ++ m ++ "\" \x7d"
  | .Acknowledge => "Acknowledge"

/-- `PluginHost::execute_command`: look up the binding (unknown command →
method-not-found, the plugin is never contacted), send `Execute` to the
owning process, and map its reply.  `send` gives the outcome of
`PluginProcess::send_request` on the owning handle. -/
def execute_command {β : Type} (st : ManagerState β)
    (send : β → HostRequestPayload → Except String PluginResponse)
    (command : String) (arguments : List Json) : Except RpcError (Option Json) :=
  match lookupCommand st command with
  | none => .error (method_not_found command)
  | some binding =>
      match send binding.plugin (.Execute command arguments) with
      | .error e => .error (internal_error e)
      | .ok (.CommandResult result) => .ok result
      | .ok (.CommandError message) => .error (internal_error message)
      | .ok other =>
          .error (internal_error
            ("plugin returned unexpected response for executeCommand: " ++
              debugPluginResponse other))

/-! ## `PluginProcess` id allocation and the pending map
(`helix-plugin-host/src/plugin.rs`)

All mutations of `next_request_id` and of the `pending` map happen under
the atomic counter / the pending mutex, so an execution linearizes into a
sequence of map events: an insert by `send_request`, a removal by the
stdout reader on a matching `response`, and the drain when stdout closes.
The state records the full history needed by the spec's invariants. -/

/-- The id/pending-map state of one `PluginProcess`, with history. -/
structure ProcState where
  nextId : Nat
  pending : List Nat
  allocated : List Nat
  inserted : List Nat
  removed : List Nat
  closed : Bool
  deriving Repr, DecidableEq

/-- State at `spawn`: `next_request_id` starts at 1, the map is empty. -/
def initProcState : ProcState := ⟨1, [], [], [], [], false⟩

/-- One linearized event on the pending map. -/
inductive ProcEv where
  | send
  | response (id : Nat)
  | eof
  deriving Repr, DecidableEq

/-- `HashMap::insert` on the key set: replacing an existing key leaves the
key set unchanged, a fresh key is appended. -/
def pendingInsert (p : List Nat) (id : Nat) : List Nat :=
  if id ∈ p then p else p ++ [id]

/-- One step: `send` performs `fetch_add(1)` (wrapping at `2^64`) and
inserts the returned id; `response id` removes the id if present (else the
reader warns and discards); `eof` drains the map. -/
def procStep (s : ProcState) : ProcEv → ProcState
  | .send =>
      let id := s.nextId
      { s with
        nextId := (s.nextId + 1) % 2 ^ 64
        pending := pendingInsert s.pending id
        allocated := s.allocated ++ [id]
        inserted := s.inserted ++ [id] }
  | .response id =>
      if id ∈ s.pending then
        { s with pending := s.pending.erase id, removed := s.removed ++ [id] }
      else s
  | .eof =>
      { s with pending := [], removed := s.removed ++ s.pending, closed := true }

/-- Run a linearized event sequence from the `spawn` state. -/
def procRun (evs : List ProcEv) : ProcState :=
  evs.foldl procStep initProcState

/-- The invariant maintained by the pending-map state machine while fewer
than `2^64` ids have been allocated: the stored counter is one past the
last id, the allocated ids are `[1, …, n]`, every allocated id was
inserted, the inserted ids are exactly the removed ids plus the ids still
pending (as multisets), and a drained reader leaves the map empty. -/
def ProcInv (s : ProcState) : Prop :=
  s.nextId = (1 + s.allocated.length) % 2 ^ 64 ∧
  s.allocated = List.range' 1 s.allocated.length ∧
  s.inserted = s.allocated ∧
  s.inserted.Perm (s.removed ++ s.pending) ∧
  (s.closed = true → s.pending = [])

/-- Number of `send_request` calls in an event sequence. -/
def countSends (evs : List ProcEv) : Nat :=
  evs.countP (fun e => e == .send)

/-- No `send_request` occurs after the stdout reader has exited: the first
argument tracks whether the reader has already drained. -/
def noSendAfterClose : Bool → List ProcEv → Bool
  | _, [] => true
  | closed, .send :: rest => !closed && noSendAfterClose closed rest
  | _, .eof :: rest => noSendAfterClose true rest
  | closed, .response _ :: rest => noSendAfterClose closed rest

/-! ## The stdout reader task and the disconnect drain -/

/-- Observable actions of the stdout reader, over an abstract oneshot
sender type `α`. -/
inductive ReaderOut (α : Type) where
  | deliver (sender : α) (result : PluginResponse)
  | warnUnknownId (id : Nat)
  | event (e : PluginEvent)
  | warnDecode
  deriving Repr, DecidableEq

/-- One line of the reader loop in `spawn_stdout_task`: decode the line as
a `PluginMessage`; a `response` removes its id from `pending` and delivers
to the waiter (warning if the id is unknown); an `event` is forwarded; a
decode failure is a warning and the line is discarded. -/
def readerStep {α : Type} (pending : List (Nat × α)) (line : Json) :
    List (Nat × α) × List (ReaderOut α) :=
  match decPluginMessage line with
  | some (.Response id result) =>
      match pending.find? (fun kv => kv.1 == id) with
      | some kv => (pending.eraseP (fun kv2 => kv2.1 == id), [.deliver kv.2 result])
      | none => (pending, [.warnUnknownId id])
  | some (.Event e) => (pending, [.event e])
  | none => (pending, [.warnDecode])

/-- The reader loop over the lines read before stdout closed. -/
def readerRun {α : Type} : List (Nat × α) → List Json → List (Nat × α) × List (ReaderOut α)
  | pending, [] => (pending, [])
  | pending, line :: rest =>
      let step := readerStep pending line
      let next := readerRun step.1 rest
      (next.1, step.2 ++ next.2)

/-- The synthetic disconnect error message, from
`drain_pending_with_failure`. -/
def disconnectMessage (name : String) : String :=
  "plugin `" ++ name ++ "` disconnected"

/-- `drain_pending_with_failure`: if the map is non-empty, every waiter is
sent a synthetic `CommandError` and the map is emptied.  Returns the
notifications and the resulting map. -/
def drain_pending_with_failure {α : Type} (name : String) (pending : List (Nat × α)) :
    List (α × PluginResponse) × List (Nat × α) :=
  if pending.isEmpty then ([], pending)
  else
    (pending.map (fun kv => (kv.2, PluginResponse.CommandError (disconnectMessage name))), [])

/-- `PluginProcess::spawn_stdout_task`: run the reader loop on the lines
read before stdout closed, then drain the pending map.  Returns the reader
outputs, the drain notifications, and the final pending map. -/
def spawn_stdout_task {α : Type} (name : String) (pending : List (Nat × α)) (lines : List Json) :
    List (ReaderOut α) × List (α × PluginResponse) × List (Nat × α) :=
  let r := readerRun pending lines
  let d := drain_pending_with_failure name r.1
  (r.2, d.1, d.2)

/-! ## Command path resolution (`resolve_command`, `resolve_relative`)

Unix path semantics: a path is absolute iff it starts with `/`;
`Path::components()` ignores empty components and non-leading `.`
components, and keeps a leading `.` component. -/

/-- `Path::is_absolute` on Unix: the path begins with a separator. -/
def isAbsolutePath (s : String) : Bool :=
  match s.data with
  | '/' :: _ => true
  | _ => false

/-- `str::starts_with('.')`. -/
def startsWithDot (s : String) : Bool :=
  match s.data with
  | '.' :: _ => true
  | _ => false

/-- Split a character list on `/`, keeping empty pieces. -/
def splitOnSlash : List Char → List (List Char)
  | [] => [[]]
  | c :: rest =>
      match splitOnSlash rest with
      | piece :: pieces => if c = '/' then [] :: piece :: pieces else (c :: piece) :: pieces
      | [] => [[]]

/-- `Path::components().count()` on Unix: a leading `.` (alone or before a
separator) counts as one `CurDir` component; the remaining count is the
number of non-empty, non-`.` pieces between separators. -/
def pathComponentsCount (s : String) : Nat :=
  (match s.data with
   | ['.'] => 1
   | '.' :: '/' :: _ => 1
   | _ => 0) +
    ((splitOnSlash s.data).filter (fun p => !(p.isEmpty || p == ['.']))).length

/-- `Path::join` / `PathBuf::push` with a relative argument: append,
inserting a separator unless one is already there. -/
def joinPath (base p : String) : String :=
  if base.data = [] then p
  else if base.data.getLast? = some '/' then base ++ p
  else base ++ "/" ++ p

/-- `plugin::resolve_command`: absolute commands pass through; a relative
command with more than one component or beginning with `.` is joined onto
the manifest directory; otherwise the command passes verbatim (PATH
lookup).  Returns the `(command, display)` pair. -/
def resolve_command (manifest_dir command : String) : String × String :=
  if isAbsolutePath command then (command, command)
  else if 1 < pathComponentsCount command || startsWithDot command then
    let resolved := joinPath manifest_dir command
    (resolved, resolved)
  else (command, command)

/-- `plugin::resolve_relative`: absolute paths pass through, relative ones
are joined onto the base. -/
def resolve_relative (base path : String) : String :=
  if isAbsolutePath path then path else joinPath base path

/-- `str::contains('/')`: the command contains a path separator. -/
def containsSeparator (s : String) : Bool :=
  s.data.contains '/'

/-- The spec's resolution rule, stated from its words for comparison with
`resolve_command`: "Resolves the command path relative to `manifest_dir`
if it is relative and contains a path separator or begins with `.`;
otherwise passes the command verbatim." -/
def specResolveCommand (manifest_dir command : String) : String :=
  if !isAbsolutePath command && (containsSeparator command || startsWithDot command) then
    joinPath manifest_dir command
  else command

/-! ## Environment construction in `PluginProcess::spawn` -/

/-- The sequence of `Command::env` calls made by `spawn`: the manifest
entry's `env` pairs (in `HashMap` iteration order), then
`HELIX_PLUGIN_NAME`, then (when a workspace root was provided)
`HELIX_WORKSPACE_ROOT`. -/
def buildSpawnEnv (entryEnv : List (String × String)) (name : String)
    (workspaceRoot : Option String) : List (String × String) :=
  entryEnv ++ [("HELIX_PLUGIN_NAME", name)] ++
    (match workspaceRoot with
     | some root => [("HELIX_WORKSPACE_ROOT", root)]
     | none => [])

/-- The effective environment seen by the child: for repeated `env` calls
with the same key, the last call wins. -/
def envLookup (l : List (String × String)) (k : String) : Option String :=
  (l.reverse.find? (fun kv => kv.1 == k)).map (fun kv => kv.2)

/-! ## The plugin-side event loop (`helix-plugin-sdk`, `runtime::run`)

The loop's I/O is abstracted to the list of decoded `HostRequest`s read
from stdin (blank lines are skipped before decoding; a read or decode
failure terminates the loop by `?` and is outside the claims settled
here).  The user plugin capability is abstracted by the outcome of its
`initialize` (the commands its registrar collected on success) and its
`execute` function.  The result is the sequence of responses written, as
`(id, result)` pairs. -/

/-- `runtime::run`'s dispatch loop, parameterized by the state of the
`initialized` flag. -/
def runLoop (init : Except Unit (List PluginCommand))
    (exec : String → List Json → Except String (Option Json)) :
    Bool → List HostRequest → List (Nat × PluginResponse)
  | _, [] => []
  | initialized, req :: rest =>
      match req.payload with
      | .Initialize _ =>
          if initialized then
            (req.id, .CommandError "plugin already initialized") :: runLoop init exec true rest
          else
            match init with
            | .error _ => []
            | .ok cmds => (req.id, .Initialized cmds) :: runLoop init exec true rest
      | .Execute command arguments =>
          if initialized then
            match exec command arguments with
            | .ok result => (req.id, .CommandResult result) :: runLoop init exec true rest
            | .error e => (req.id, .CommandError e) :: runLoop init exec true rest
          else (req.id, .CommandError "plugin not initialized") :: runLoop init exec false rest
      | .Shutdown => [(req.id, .Acknowledge)]

/-! # Claims -/

/-- Claim C7: `executeCommand` dispatch.  A command id absent from the
registry yields a method-not-found failure, and the result does not depend
on the send function (no plugin is contacted); with a binding present, a
`CommandResult` reply yields success carrying the optional JSON value
(`None` surfacing as JSON-RPC result `null`), a `CommandError` reply
yields an internal-error failure carrying the plugin's message, and any
other reply variant yields an internal-error failure citing the
unexpected response. -/
theorem C7_executeCommand_dispatch {β : Type} (st : ManagerState β)
    (send : β → HostRequestPayload → Except String PluginResponse)
    (command : String) (arguments : List Json) :
    (lookupCommand st command = none →
      execute_command st send command arguments = .error (method_not_found command) ∧
      ∀ send2, execute_command st send command arguments = execute_command st send2 command arguments) ∧
    (∀ binding result, lookupCommand st command = some binding →
      send binding.plugin (.Execute command arguments) = .ok (.CommandResult result) →
      execute_command st send command arguments = .ok result) ∧
    (∀ binding message, lookupCommand st command = some binding →
      send binding.plugin (.Execute command arguments) = .ok (.CommandError message) →
      execute_command st send command arguments = .error (internal_error message)) ∧
    (∀ binding other, lookupCommand st command = some binding →
      send binding.plugin (.Execute command arguments) = .ok other →
      (∀ r, other ≠ .CommandResult r) → (∀ m, other ≠ .CommandError m) →
      execute_command st send command arguments =
        .error (internal_error ("plugin returned unexpected response for executeCommand: " ++
          debugPluginResponse other))) := by
  refine ⟨?_, ?_, ?_, ?_⟩
  · intro h
    exact ⟨by simp [execute_command, h], fun send2 => by simp [execute_command, h]⟩
  · intro binding result hl hs
    simp [execute_command, hl, hs]
  · intro binding message hl hs
    simp [execute_command, hl, hs]
  · intro binding other hl hs h1 h2
    cases other with
    | CommandResult r => exact absurd rfl (h1 r)
    | CommandError m => exact absurd rfl (h2 m)
    | Initialized cmds => simp [execute_command, hl, hs]
    | Acknowledge => simp [execute_command, hl, hs]

/-- Witness for C7 at a concrete registry, send function and command. -/
theorem C7_witness :
    execute_command (⟨[("p", 0)], [("x", ⟨0, "t", none⟩)], true⟩ : ManagerState Nat)
      (fun _ _ => .ok (.CommandResult none)) "x" [] = .ok none :=
  (C7_executeCommand_dispatch _ _ "x" []).2.1 ⟨0, "t", none⟩ none (by decide) rfl

/-- Claim C10: for every manifest entry, the environment handed to the
spawned child binds `HELIX_PLUGIN_NAME` to the entry's name and, when a
workspace root is provided, `HELIX_WORKSPACE_ROOT` to that root, whatever
bindings the entry's own env map contains: the injected values are
applied after the manifest-supplied env and win under last-call-wins
semantics. -/
theorem C10_env_injection (entryEnv : List (String × String)) (name : String)
    (workspaceRoot : Option String) :
    envLookup (buildSpawnEnv entryEnv name workspaceRoot) "HELIX_PLUGIN_NAME" = some name ∧
    (∀ root, workspaceRoot = some root →
      envLookup (buildSpawnEnv entryEnv name workspaceRoot) "HELIX_WORKSPACE_ROOT" = some root) := by
  constructor
  · cases workspaceRoot <;> simp [buildSpawnEnv, envLookup]
  · intro root h
    subst h
    simp [buildSpawnEnv, envLookup]

/-- Witness for C10 with an entry env that tries to override both keys. -/
theorem C10_witness :
    envLookup (buildSpawnEnv [("HELIX_PLUGIN_NAME", "evil"), ("HELIX_WORKSPACE_ROOT", "evil")]
      "p" (some "/w")) "HELIX_PLUGIN_NAME" = some "p" ∧
    envLookup (buildSpawnEnv [("HELIX_PLUGIN_NAME", "evil"), ("HELIX_WORKSPACE_ROOT", "evil")]
      "p" (some "/w")) "HELIX_WORKSPACE_ROOT" = some "/w" :=
  ⟨(C10_env_injection _ "p" (some "/w")).1, (C10_env_injection _ "p" (some "/w")).2 "/w" rfl⟩

/-- Claim C4: when a plugin's stdout closes, the reader drains the pending
map: the final pending map is empty, the drain notifications send every
waiter still registered at close exactly one synthetic
`CommandError` carrying `disconnectMessage name`, and each waiter is
notified exactly as many times as it is registered (so none is notified
twice and none is left unnotified). -/
theorem C4_disconnect_drain {α : Type} [DecidableEq α] (name : String)
    (pending : List (Nat × α)) (lines : List Json) :
    (spawn_stdout_task name pending lines).2.2 = [] ∧
    (spawn_stdout_task name pending lines).2.1 =
      (readerRun pending lines).1.map
        (fun kv => (kv.2, PluginResponse.CommandError (disconnectMessage name))) ∧
    (∀ sender : α,
      ((spawn_stdout_task name pending lines).2.1.countP (fun note => note.1 == sender)) =
        ((readerRun pending lines).1.countP (fun kv => kv.2 == sender))) := by
  have h1 : (spawn_stdout_task name pending lines).2.1 =
      (drain_pending_with_failure name (readerRun pending lines).1).1 := rfl
  have h2 : (spawn_stdout_task name pending lines).2.2 =
      (drain_pending_with_failure name (readerRun pending lines).1).2 := rfl
  have hmap : ∀ p : List (Nat × α), (drain_pending_with_failure name p).1 =
      p.map (fun kv => (kv.2, PluginResponse.CommandError (disconnectMessage name))) := by
    intro p
    cases p <;> simp [drain_pending_with_failure]
  have hempty : ∀ p : List (Nat × α), (drain_pending_with_failure name p).2 = [] := by
    intro p
    cases p <;> simp [drain_pending_with_failure]
  refine ⟨by rw [h2, hempty], by rw [h1, hmap], ?_⟩
  intro sender
  rw [h1, hmap, List.countP_map]
  rfl

/-- Counterexample to C2 as stated: after a handshake reply of
`Acknowledge`, `register_plugin` returns with the state unchanged — the
plugin is *not* in the manager's plugin list and `shutdown_all` shuts
nothing down, contradicting "it remains in the manager's plugin list …
and it is shut down by shutdown_all". -/
theorem C2_counterexample :
    register_plugin (⟨[], [], false⟩ : ManagerState Nat) ⟨"p", "cmd", [], [], none⟩ 0
      (.ok .Acknowledge) = .ok ⟨[], [], false⟩ ∧
    (⟨[], [], false⟩ : ManagerState Nat).plugins = [] ∧
    (shutdown_all (⟨[], [], false⟩ : ManagerState Nat)).1 = [] := by
  refine ⟨rfl, rfl, rfl⟩

/-- Claim C2 (amended): a handshake reply of any variant other than
`Initialized` is a logged warning and `register_plugin` returns with the
manager state unchanged: the plugin contributes no commands, and — unlike
the claim's wording — it is not added to the plugin list, so
`shutdown_all`, which shuts down exactly the listed plugins, never shuts
it down. -/
theorem C2_amended {β : Type} (st : ManagerState β) (entry : PluginEntry) (process : β)
    (response : PluginResponse) (hnot : ∀ cmds, response ≠ .Initialized cmds) :
    register_plugin st entry process (.ok response) = .ok st ∧
    (shutdown_all st).1 = st.plugins.map Prod.snd := by
  constructor
  · cases response with
    | Initialized cmds => exact absurd rfl (hnot cmds)
    | CommandResult r => rfl
    | CommandError m => rfl
    | Acknowledge => rfl
  · rfl

/-- Witness for the amended C2 at a concrete state and entry. -/
theorem C2_witness :
    register_plugin (⟨[("q", 7)], [], false⟩ : ManagerState Nat) ⟨"p", "cmd", [], [], none⟩ 0
      (.ok .Acknowledge) = .ok ⟨[("q", 7)], [], false⟩ ∧
    (shutdown_all (⟨[("q", 7)], [], false⟩ : ManagerState Nat)).1 = [7] :=
  C2_amended ⟨[("q", 7)], [], false⟩ ⟨"p", "cmd", [], [], none⟩ 0 .Acknowledge
    (fun cmds h => by cases h)

/-- Counterexample to C8 as stated: `"x/"` is a relative command
containing a path separator, so the claim requires it to be joined onto
the manifest directory (as the spec-worded rule `specResolveCommand`
does), but `resolve_command` passes it verbatim because it has a single
normalized path component. -/
theorem C8_counterexample :
    isAbsolutePath "x/" = false ∧
    containsSeparator "x/" = true ∧
    specResolveCommand "/m" "x/" = "/m/x/" ∧
    resolve_command "/m" "x/" = ("x/", "x/") ∧
    ("x/" : String) ≠ "/m/x/" := by decide

/-- Claim C8 (amended): absolute commands pass through verbatim; a
relative command is joined onto the manifest directory exactly when it
has more than one normalized path component (Rust `Path::components`
semantics, which drop trailing separators and non-leading `.` pieces) or
begins with `.`; other relative commands pass verbatim.  An entry's `cwd`
is joined onto the manifest directory exactly when it is not absolute. -/
theorem C8_amended (dir cmd p : String) :
    (isAbsolutePath cmd = true → resolve_command dir cmd = (cmd, cmd)) ∧
    (isAbsolutePath cmd = false → (1 < pathComponentsCount cmd ∨ startsWithDot cmd = true) →
      resolve_command dir cmd = (joinPath dir cmd, joinPath dir cmd)) ∧
    (isAbsolutePath cmd = false → pathComponentsCount cmd ≤ 1 → startsWithDot cmd = false →
      resolve_command dir cmd = (cmd, cmd)) ∧
    (isAbsolutePath p = true → resolve_relative dir p = p) ∧
    (isAbsolutePath p = false → resolve_relative dir p = joinPath dir p) := by
  refine ⟨?_, ?_, ?_, ?_, ?_⟩
  · intro h
    simp [resolve_command, h]
  · intro h hj
    rcases hj with hj | hj
    · simp [resolve_command, h, hj]
    · simp [resolve_command, h, hj]
  · intro h h1 h2
    have : ¬ (1 < pathComponentsCount cmd) := by omega
    simp [resolve_command, h, h2, this]
  · intro h
    simp [resolve_relative, h]
  · intro h
    simp [resolve_relative, h]

/-- Witness for the amended C8 at concrete paths. -/
theorem C8_witness :
    resolve_command "/m" "a/b" = ("/m/a/b", "/m/a/b") ∧
    resolve_relative "/m" "w" = "/m/w" :=
  ⟨by
    have h := (C8_amended "/m" "a/b" "w").2.1 (by decide) (by decide)
    simpa using h,
   by
    have h := (C8_amended "/m" "a/b" "w").2.2.2.2 (by decide)
    simpa using h⟩

/-- helper: spawnAll with no transport failures -/
theorem spawnAll_ok {β : Type} (spawn : PluginEntry → Except String β)
    (handshake : β → Except String PluginResponse) :
    ∀ (entries : List PluginEntry) (st : ManagerState β),
      (∀ e p, e ∈ entries → spawn e = .ok p → (handshake p).isOk = true) →
      ∃ st', spawnAll spawn handshake st entries = .ok st' ∧ st'.initialized = true ∧
        st'.plugins.map Prod.fst =
          st.plugins.map Prod.fst ++
            (entries.filter (handshakeRegistered spawn handshake)).map PluginEntry.name := by
  intro entries
  induction entries with
  | nil =>
      intro st _
      exact ⟨{ st with initialized := true }, rfl, rfl, by simp [spawnAll]⟩
  | cons e rest ih =>
      intro st h
      cases hsp : spawn e with
      | error err =>
          obtain ⟨st', h1, h2, h3⟩ := ih st (fun e' p he' => h e' p (List.mem_cons_of_mem _ he'))
          refine ⟨st', ?_, h2, ?_⟩
          · simpa [spawnAll, hsp] using h1
          · rw [h3]
            congr 2
            simp [List.filter_cons, handshakeRegistered, hsp]
      | ok p =>
          have hh := h e p (List.mem_cons_self e rest) hsp
          cases hhs : handshake p with
          | error err => rw [hhs] at hh; simp [Except.isOk, Except.toBool] at hh
          | ok resp =>
              cases resp with
              | Initialized cmds =>
                  obtain ⟨st', h1, h2, h3⟩ :=
                    ih { st with
                          commands := cmds.foldl
                            (fun acc c => hashInsert acc c.id ⟨p, c.title, c.description⟩)
                            st.commands,
                          plugins := st.plugins ++ [(e.name, p)] }
                      (fun e' p' he' => h e' p' (List.mem_cons_of_mem _ he'))
                  refine ⟨st', ?_, h2, ?_⟩
                  · simpa [spawnAll, hsp, hhs, register_plugin] using h1
                  · rw [h3]
                    simp [List.filter_cons, handshakeRegistered, hsp, hhs]
              | CommandResult r =>
                  obtain ⟨st', h1, h2, h3⟩ := ih st (fun e' p' he' => h e' p' (List.mem_cons_of_mem _ he'))
                  refine ⟨st', ?_, h2, ?_⟩
                  · simpa [spawnAll, hsp, hhs, register_plugin] using h1
                  · rw [h3]
                    congr 2
                    simp [List.filter_cons, handshakeRegistered, hsp, hhs]
              | CommandError m =>
                  obtain ⟨st', h1, h2, h3⟩ := ih st (fun e' p' he' => h e' p' (List.mem_cons_of_mem _ he'))
                  refine ⟨st', ?_, h2, ?_⟩
                  · simpa [spawnAll, hsp, hhs, register_plugin] using h1
                  · rw [h3]
                    congr 2
                    simp [List.filter_cons, handshakeRegistered, hsp, hhs]
              | Acknowledge =>
                  obtain ⟨st', h1, h2, h3⟩ := ih st (fun e' p' he' => h e' p' (List.mem_cons_of_mem _ he'))
                  refine ⟨st', ?_, h2, ?_⟩
                  · simpa [spawnAll, hsp, hhs, register_plugin] using h1
                  · rw [h3]
                    congr 2
                    simp [List.filter_cons, handshakeRegistered, hsp, hhs]

/-- Counterexample to C1 as stated: with two manifest entries whose spawn
succeeds but whose first handshake fails, `ensure_initialized` returns
the handshake error instead of success — the failure aborts the host
startup, the second entry is never registered and the initialized flag is
not set. -/
theorem C1_counterexample :
    ensure_initialized (fun _ => .ok (0 : Nat)) (fun _ => .error "write failed")
      (.ok [⟨"p", "cmd", [], [], none⟩, ⟨"q", "cmd2", [], [], none⟩]) ⟨[], [], false⟩ =
    .error "plugin `p` failed initialization handshake: write failed" := by decide

/-- Claim C1 (amended): during `ensure_initialized`, a spawn failure is
logged and that entry skipped without aborting — when no handshake
transport failure occurs, the call succeeds, sets the initialized flag,
and registers exactly the entries whose spawn succeeded and whose
handshake returned `Initialized`.  A handshake transport failure,
however, aborts `ensure_initialized` with an error (the `?` on
`register_plugin`), so the flag is not set. -/
theorem C1_amended {β : Type} (spawn : PluginEntry → Except String β)
    (handshake : β → Except String PluginResponse) (st : ManagerState β)
    (hinit : st.initialized = false) :
    (∀ entries, (∀ e p, e ∈ entries → spawn e = .ok p → (handshake p).isOk = true) →
      ∃ st', ensure_initialized spawn handshake (.ok entries) st = .ok st' ∧
        st'.initialized = true ∧
        st'.plugins.map Prod.fst =
          (entries.filter (handshakeRegistered spawn handshake)).map PluginEntry.name) ∧
    (∀ e p msg rest, spawn e = .ok p → handshake p = .error msg →
      ensure_initialized spawn handshake (.ok (e :: rest)) st =
        .error ("plugin `" ++ e.name ++ "` failed initialization handshake: " ++ msg)) := by
  constructor
  · intro entries hok
    obtain ⟨st', h1, h2, h3⟩ :=
      spawnAll_ok spawn handshake entries { st with plugins := [], commands := [] } hok
    refine ⟨st', ?_, h2, ?_⟩
    · simpa [ensure_initialized, hinit] using h1
    · simpa using h3
  · intro e p msg rest hsp hhs
    simp [ensure_initialized, hinit, spawnAll, hsp, register_plugin, hhs]

/-- Witness for the amended C1: a failing spawn among succeeding ones, and
a failing handshake aborting the call. -/
theorem C1_witness :
    (∃ st', ensure_initialized (fun e => if e.name == "bad" then .error "spawn failed" else .ok (0 : Nat))
        (fun _ => .ok (.Initialized []))
        (.ok [⟨"a", "c1", [], [], none⟩, ⟨"bad", "c2", [], [], none⟩, ⟨"b", "c3", [], [], none⟩])
        (⟨[], [], false⟩ : ManagerState Nat) = .ok st' ∧
      st'.initialized = true ∧
      st'.plugins.map Prod.fst =
        ([⟨"a", "c1", [], [], none⟩, ⟨"bad", "c2", [], [], none⟩,
          ⟨"b", "c3", [], [], none⟩].filter
            (handshakeRegistered (fun e => if e.name == "bad" then .error "spawn failed" else .ok 0)
              (fun _ => .ok (.Initialized [])))).map PluginEntry.name) ∧
    ensure_initialized (fun e => if e.name == "bad" then .error "spawn failed" else .ok (0 : Nat))
      (fun _ => .error "boom")
      (.ok [⟨"a", "c1", [], [], none⟩]) (⟨[], [], false⟩ : ManagerState Nat) =
      .error "plugin `a` failed initialization handshake: boom" :=
  ⟨(C1_amended _ _ _ rfl).1 _ (fun _ _ _ _ => rfl),
   (C1_amended _ _ _ rfl).2 ⟨"a", "c1", [], [], none⟩ 0 "boom" [] (by decide) rfl⟩

/-- Claim C6: the plugin-side event loop is a state machine on the
`initialized` flag: an `execute` before a successful `initialize` is
answered `command_error "plugin not initialized"`; a second `initialize`
after a successful one is answered
`command_error "plugin already initialized"`; a `shutdown` in any state
is answered `acknowledge` and terminates the loop so no later request is
processed; and each reply carries the id of the request it answers (the
reply ids are a prefix of the request ids, in order). -/
theorem C6_plugin_state_machine (init : Except Unit (List PluginCommand))
    (exec : String → List Json → Except String (Option Json)) :
    (∀ i c a rest, runLoop init exec false (⟨i, .Execute c a⟩ :: rest) =
      (i, .CommandError "plugin not initialized") :: runLoop init exec false rest) ∧
    (∀ i w cmds rest, init = .ok cmds →
      runLoop init exec false (⟨i, .Initialize w⟩ :: rest) =
        (i, .Initialized cmds) :: runLoop init exec true rest) ∧
    (∀ i w rest, runLoop init exec true (⟨i, .Initialize w⟩ :: rest) =
      (i, .CommandError "plugin already initialized") :: runLoop init exec true rest) ∧
    (∀ i b rest, runLoop init exec b (⟨i, .Shutdown⟩ :: rest) = [(i, .Acknowledge)]) ∧
    (∀ b reqs, ∃ t, reqs.map HostRequest.id = (runLoop init exec b reqs).map Prod.fst ++ t) := by
  refine ⟨?_, ?_, ?_, ?_, ?_⟩
  · intro i c a rest
    simp [runLoop]
  · intro i w cmds rest h
    simp [runLoop, h]
  · intro i w rest
    simp [runLoop]
  · intro i b rest
    cases b <;> simp [runLoop]
  · intro b reqs
    induction reqs generalizing b with
    | nil => exact ⟨[], rfl⟩
    | cons req rest ih =>
        obtain ⟨i, payload⟩ := req
        cases payload with
        | Initialize w =>
            cases b with
            | true =>
                obtain ⟨t, ht⟩ := ih true
                exact ⟨t, by simp [runLoop, ht]⟩
            | false =>
                cases hinit : init with
                | error e => exact ⟨i :: rest.map HostRequest.id, by simp [runLoop, hinit]⟩
                | ok cmds =>
                    obtain ⟨t, ht⟩ := ih true
                    exact ⟨t, by simp [runLoop, hinit, ht]⟩
        | Execute c a =>
            cases b with
            | false =>
                obtain ⟨t, ht⟩ := ih false
                exact ⟨t, by simp [runLoop, ht]⟩
            | true =>
                cases hexec : exec c a with
                | ok r =>
                    obtain ⟨t, ht⟩ := ih true
                    exact ⟨t, by simp [runLoop, hexec, ht]⟩
                | error e =>
                    obtain ⟨t, ht⟩ := ih true
                    exact ⟨t, by simp [runLoop, hexec, ht]⟩
        | Shutdown => exact ⟨rest.map HostRequest.id, by cases b <;> simp [runLoop]⟩

/-- Witness for C6: a successful `initialize` reply at a concrete
request. -/
theorem C6_witness :
    runLoop (.ok [⟨"c", "t", none⟩]) (fun _ _ => .ok none) false [⟨2, .Initialize none⟩] =
      [(2, .Initialized [⟨"c", "t", none⟩])] := by
  have h := (C6_plugin_state_machine (.ok [⟨"c", "t", none⟩]) (fun _ _ => .ok none)).2.1
    2 none [⟨"c", "t", none⟩] [] rfl
  simpa using h


/-- Round trip for `MessageLevel`. -/
theorem decMessageLevel_enc (l : MessageLevel) : decMessageLevel (encMessageLevel l) = some l := by
  cases l <;> rfl

/-- Round trip for `PluginCommand`. -/
theorem decPluginCommand_enc (c : PluginCommand) :
    decPluginCommand (encPluginCommand c) = some c := by
  obtain ⟨i, t, d⟩ := c
  cases d with
  | none =>
      simp [encPluginCommand, decPluginCommand, decPluginCommandFields, decString, decOptString]
  | some dsc =>
      simp [encPluginCommand, decPluginCommand, decPluginCommandFields, decString, decOptString]

/-- Round trip for command lists. -/
theorem decPluginCommands_enc (cmds : List PluginCommand) :
    decPluginCommands (cmds.map encPluginCommand) = some cmds := by
  induction cmds with
  | nil => rfl
  | cons c rest ih => simp [decPluginCommands, decPluginCommand_enc, ih]

/-- Round trip for `u64` ids. -/
theorem decU64_enc (n : Nat) (h : n < 2 ^ 64) : decU64 (.num n) = some n := by
  have h0 : (0 : Int) ≤ (n : Int) := Int.natCast_nonneg n
  have h1 : ((n : Int) < (2 : Int) ^ 64) := by exact_mod_cast h
  simp [decU64, h0, h1]
  omega

/-- Round trip for `HostRequestPayload`. -/
theorem decHostRequestPayload_enc (p : HostRequestPayload) :
    decHostRequestPayload (encHostRequestPayload p) = some p := by
  cases p with
  | Initialize w =>
      cases w with
      | none =>
          simp [encHostRequestPayload, decHostRequestPayload, extractTag, extractTagGo,
            decInitializeFields, decOptString, encOptString]
      | some s =>
          simp [encHostRequestPayload, decHostRequestPayload, extractTag, extractTagGo,
            decInitializeFields, decOptString, encOptString]
  | Execute c a =>
      simp [encHostRequestPayload, decHostRequestPayload, extractTag, extractTagGo,
        decExecuteFields, decString]
  | Shutdown => rfl

/-- Round trip for `HostRequest` (ids are `u64`). -/
theorem decHostRequest_enc (r : HostRequest) (h : r.id < 2 ^ 64) :
    decHostRequest (encHostRequest r) = some r := by
  obtain ⟨i, p⟩ := r
  show decHostRequestFields [("id", .num i), ("payload", encHostRequestPayload p)] none none =
    some ⟨i, p⟩
  rw [decHostRequestFields, if_pos rfl, decU64_enc i h]
  show decHostRequestFields [("payload", encHostRequestPayload p)] (some i) none = some ⟨i, p⟩
  rw [decHostRequestFields, if_neg (by decide), if_pos rfl, decHostRequestPayload_enc]
  rfl

/-- `Option<Value>` decoding is inverse to encoding away from `null`. -/
theorem decOptValue_ne_null (v : Json) (hv : v ≠ .null) : decOptValue v = some (some v) := by
  cases v with
  | null => exact absurd rfl hv
  | bool b => rfl
  | num n => rfl
  | str s => rfl
  | arr xs => rfl
  | obj fs => rfl

/-- Round trip for `PluginResponse` away from `CommandResult (Some Null)`. -/
theorem decPluginResponse_enc (r : PluginResponse) (h : goodPluginResponse r) :
    decPluginResponse (encPluginResponse r) = some r := by
  cases r with
  | Initialized cmds =>
      simp [encPluginResponse, decPluginResponse, extractTag, extractTagGo,
        decInitializedFields, decPluginCommands_enc]
  | CommandResult ro =>
      cases ro with
      | none => rfl
      | some v =>
          have hv : v ≠ .null := by
            intro hv
            exact h (by rw [hv])
          simp [encPluginResponse, decPluginResponse, extractTag, extractTagGo,
            decCommandResultFields, encOptValue, decOptValue_ne_null v hv]
  | CommandError m =>
      simp [encPluginResponse, decPluginResponse, extractTag, extractTagGo,
        decCommandErrorFields, decString]
  | Acknowledge => rfl

/-- Round trip for `PluginEvent`. -/
theorem decPluginEvent_enc (e : PluginEvent) :
    decPluginEvent (encPluginEvent e) = some e := by
  cases e with
  | ShowMessage l m =>
      simp [encPluginEvent, decPluginEvent, extractTag, extractTagGo, decEventFields,
        decMessageLevel_enc, decString]
  | Log l m =>
      simp [encPluginEvent, decPluginEvent, extractTag, extractTagGo, decEventFields,
        decMessageLevel_enc, decString]

/-- Round trip for `PluginMessage`. -/
theorem decPluginMessage_enc (m : PluginMessage) (h : goodPluginMessage m) :
    decPluginMessage (encPluginMessage m) = some m := by
  cases m with
  | Response i r =>
      obtain ⟨hi, hr⟩ := h
      show (if "response" = "response" then
          decResponseFields [("id", .num i), ("result", encPluginResponse r)] none none
        else if "response" = "event" then
          decEventMsgFields [("id", .num i), ("result", encPluginResponse r)] none
        else none) = some (.Response i r)
      rw [if_pos rfl, decResponseFields, if_pos rfl, decU64_enc i hi]
      show decResponseFields [("result", encPluginResponse r)] (some i) none =
        some (.Response i r)
      rw [decResponseFields, if_neg (by decide), if_pos rfl, decPluginResponse_enc r hr]
      rfl
  | Event e =>
      simp [encPluginMessage, decPluginMessage, extractTag, extractTagGo,
        decEventMsgFields, decPluginEvent_enc]

/-- Claim C9 (amended): serialize-then-deserialize is the identity for
every `HostRequest` (with its `u64` id), every `PluginEvent`, and every
`PluginResponse` / `PluginMessage` whose optional command result is not
`Some(Null)` — the one exception exhibited by the counterexample. -/
theorem C9_roundtrip :
    (∀ r : HostRequest, r.id < 2 ^ 64 → decHostRequest (encHostRequest r) = some r) ∧
    (∀ e : PluginEvent, decPluginEvent (encPluginEvent e) = some e) ∧
    (∀ r : PluginResponse, goodPluginResponse r →
      decPluginResponse (encPluginResponse r) = some r) ∧
    (∀ m : PluginMessage, goodPluginMessage m →
      decPluginMessage (encPluginMessage m) = some m) :=
  ⟨decHostRequest_enc, decPluginEvent_enc, decPluginResponse_enc, decPluginMessage_enc⟩

/-- Counterexample to C9 as stated: `CommandResult` with result
`Some(Null)` serializes to `result: null`, which deserializes to
`CommandResult` with result `None`, a structurally different value. -/
theorem C9_counterexample :
    decPluginResponse (encPluginResponse (.CommandResult (some .null))) =
      some (.CommandResult none) ∧
    PluginResponse.CommandResult (none : Option Json) ≠ .CommandResult (some .null) := by
  decide

/-- Witness for C9 at a concrete message. -/
theorem C9_witness :
    decPluginMessage (encPluginMessage (.Response 3 (.CommandResult (some (.num 7))))) =
      some (.Response 3 (.CommandResult (some (.num 7)))) :=
  C9_roundtrip.2.2.2 (.Response 3 (.CommandResult (some (.num 7)))) (by decide)

/-- Appending a non-tag field commutes with tag extraction. -/
theorem extractTagGo_append_unknown (k : String) (v : Json) (hk : k ≠ "type") :
    ∀ (fs : List (String × Json)) (tag : Option String) (acc : List (String × Json)),
      extractTagGo tag acc (fs ++ [(k, v)]) =
        match extractTagGo tag acc fs with
        | some (t, rest) => some (t, rest ++ [(k, v)])
        | none => none := by
  intro fs
  induction fs with
  | nil =>
      intro tag acc
      cases tag with
      | none => simp [extractTagGo, hk]
      | some t => simp [extractTagGo, hk]
  | cons f fs ih =>
      intro tag acc
      obtain ⟨k0, v0⟩ := f
      by_cases h0 : k0 = "type"
      · subst h0
        cases tag with
        | some t => simp [extractTagGo]
        | none =>
            cases v0 with
            | str t => simp [extractTagGo, ih]
            | null => simp [extractTagGo]
            | bool b => simp [extractTagGo]
            | num n => simp [extractTagGo]
            | arr xs => simp [extractTagGo]
            | obj fs2 => simp [extractTagGo]
      · simp [extractTagGo, h0, ih]

/-- A trailing unknown field is skipped by the `response` field loop. -/
theorem decResponseFields_append_unknown (k : String) (v : Json)
    (h1 : k ≠ "id") (h2 : k ≠ "result") :
    ∀ (fs : List (String × Json)) (i? : Option Nat) (r? : Option PluginResponse),
      decResponseFields (fs ++ [(k, v)]) i? r? = decResponseFields fs i? r? := by
  intro fs
  induction fs with
  | nil =>
      intro i? r?
      simp [decResponseFields, h1, h2]
  | cons f fs ih =>
      intro i? r?
      obtain ⟨k0, v0⟩ := f
      by_cases hk0 : k0 = "id"
      · subst hk0
        by_cases hi : i?.isSome
        · simp [decResponseFields, hi]
        · cases hdec : decU64 v0 with
          | some n => simp [decResponseFields, hi, hdec, ih]
          | none => simp [decResponseFields, hi, hdec]
      · by_cases hk1 : k0 = "result"
        · subst hk1
          by_cases hr : r?.isSome
          · simp [decResponseFields, hr]
          · cases hdec : decPluginResponse v0 with
            | some rr => simp [decResponseFields, hr, hdec, ih]
            | none => simp [decResponseFields, hr, hdec]
        · simp [decResponseFields, hk0, hk1, ih]

/-- A trailing unknown field is skipped by the `event` field loop. -/
theorem decEventMsgFields_append_unknown (k : String) (v : Json) (h1 : k ≠ "event") :
    ∀ (fs : List (String × Json)) (e? : Option PluginEvent),
      decEventMsgFields (fs ++ [(k, v)]) e? = decEventMsgFields fs e? := by
  intro fs
  induction fs with
  | nil =>
      intro e?
      simp [decEventMsgFields, h1]
  | cons f fs ih =>
      intro e?
      obtain ⟨k0, v0⟩ := f
      by_cases hk0 : k0 = "event"
      · subst hk0
        by_cases he : e?.isSome
        · simp [decEventMsgFields, he]
        · cases hdec : decPluginEvent v0 with
          | some e => simp [decEventMsgFields, he, hdec, ih]
          | none => simp [decEventMsgFields, he, hdec]
      · simp [decEventMsgFields, hk0, ih]

/-- A trailing unknown field does not change how a `PluginMessage` line
decodes. -/
theorem decPluginMessage_append_unknown (fields : List (String × Json)) (k : String) (v : Json)
    (hk1 : k ≠ "type") (hk2 : k ≠ "id") (hk3 : k ≠ "result") (hk4 : k ≠ "event") :
    decPluginMessage (.obj (fields ++ [(k, v)])) = decPluginMessage (.obj fields) := by
  have htag := extractTagGo_append_unknown k v hk1 fields none []
  simp only [decPluginMessage, extractTag]
  rw [htag]
  cases hres : extractTagGo none [] fields with
  | none => rfl
  | some tr =>
      obtain ⟨t, rest⟩ := tr
      by_cases ht : t = "response"
      · subst ht
        simp [decResponseFields_append_unknown k v hk2 hk3]
      · by_cases ht2 : t = "event"
        · subst ht2
          simp [ht, decEventMsgFields_append_unknown k v hk4]
        · simp [ht, ht2]

/-- Claim C3 (amended): host-side decoding is lenient, not strict —
appending a field unknown to the host-defined structs to any well-formed
`PluginMessage` line leaves decoding successful and the decoded value
unchanged, instead of being rejected. -/
theorem C3_amended (m : PluginMessage) (k : String) (v : Json)
    (hk1 : k ≠ "type") (hk2 : k ≠ "id") (hk3 : k ≠ "result") (hk4 : k ≠ "event")
    (hm : goodPluginMessage m) :
    decPluginMessage (addField (encPluginMessage m) k v) = some m := by
  have henc : ∃ fs, encPluginMessage m = .obj fs := by
    cases m with
    | Response i r => exact ⟨_, rfl⟩
    | Event e => exact ⟨_, rfl⟩
  obtain ⟨fs, hfs⟩ := henc
  rw [hfs]
  show decPluginMessage (.obj (fs ++ [(k, v)])) = some m
  rw [decPluginMessage_append_unknown fs k v hk1 hk2 hk3 hk4]
  rw [← hfs]
  exact decPluginMessage_enc m hm

/-- Counterexample to C3 as stated: a JSON object line carrying the
unknown field `x_unknown` decodes successfully (the field is ignored)
instead of being rejected as a decode failure. -/
theorem C3_counterexample :
    decPluginMessage (.obj [("type", .str "event"),
      ("event", .obj [("type", .str "log"), ("level", .str "info"), ("message", .str "x")]),
      ("x_unknown", .num 1)]) =
    some (.Event (.Log .info "x")) := by
  decide

/-- Witness for the amended C3 at a concrete message and unknown field. -/
theorem C3_witness :
    decPluginMessage (addField (encPluginMessage (.Event (.Log .info "x"))) "x_unknown"
      (.num 1)) = some (.Event (.Log .info "x")) :=
  C3_amended (.Event (.Log .info "x")) "x_unknown" (.num 1)
    (by decide) (by decide) (by decide) (by decide) (by decide)

/-- Folding the pending-map step function preserves `ProcInv`, counts the
sends into `allocated`, and records a drain in `closed`. -/
theorem procStep_fold_inv :
    ∀ (evs : List ProcEv) (s : ProcState), ProcInv s →
      noSendAfterClose s.closed evs = true →
      s.allocated.length + countSends evs < 2 ^ 64 →
      ProcInv (evs.foldl procStep s) ∧
      (evs.foldl procStep s).allocated.length = s.allocated.length + countSends evs ∧
      ((ProcEv.eof ∈ evs ∨ s.closed = true) → (evs.foldl procStep s).closed = true) := by
  intro evs
  induction evs with
  | nil =>
      intro s hinv _ _
      refine ⟨hinv, by simp [countSends], ?_⟩
      intro h
      rcases h with h | h
      · cases h
      · exact h
  | cons ev rest ih =>
      intro s hinv hns hbound
      obtain ⟨h1, h2, h3, h4, h5⟩ := hinv
      cases ev with
      | send =>
          have hclosed : s.closed = false := by
            cases hc : s.closed
            · rfl
            · rw [hc] at hns
              simp [noSendAfterClose] at hns
          have hns' : noSendAfterClose s.closed rest = true := by
            rw [hclosed] at hns ⊢
            simpa [noSendAfterClose] using hns
          have hcount : countSends (ProcEv.send :: rest) = countSends rest + 1 := by
            simp [countSends, List.countP_cons]
          rw [hcount] at hbound
          have hlt : 1 + s.allocated.length < 2 ^ 64 := by omega
          have hid : s.nextId = 1 + s.allocated.length := by
            rw [h1]
            exact Nat.mod_eq_of_lt hlt
          have hfresh : s.nextId ∉ s.pending := by
            intro hmem
            have hmem2 : s.nextId ∈ s.inserted :=
              h4.mem_iff.mpr (List.mem_append_right _ hmem)
            rw [h3, h2] at hmem2
            have := List.mem_range'_1.mp hmem2
            omega
          have hinsert : pendingInsert s.pending s.nextId = s.pending ++ [s.nextId] := by
            simp [pendingInsert, hfresh]
          have hinv' : ProcInv (procStep s .send) := by
            refine ⟨?_, ?_, ?_, ?_, ?_⟩
            · show (s.nextId + 1) % 2 ^ 64 =
                (1 + (s.allocated ++ [s.nextId]).length) % 2 ^ 64
              rw [hid]
              simp only [List.length_append, List.length_singleton]
              omega
            · show s.allocated ++ [s.nextId] =
                List.range' 1 (s.allocated ++ [s.nextId]).length
              simp only [List.length_append, List.length_singleton]
              rw [List.range'_1_concat, hid, ← h2]
            · show s.inserted ++ [s.nextId] = s.allocated ++ [s.nextId]
              rw [h3]
            · show (s.inserted ++ [s.nextId]).Perm
                (s.removed ++ pendingInsert s.pending s.nextId)
              rw [hinsert, ← List.append_assoc]
              exact h4.append_right [s.nextId]
            · intro hc
              have hc2 : s.closed = true := hc
              rw [hclosed] at hc2
              cases hc2
          have hbound' : (procStep s .send).allocated.length + countSends rest < 2 ^ 64 := by
            show (s.allocated ++ [s.nextId]).length + countSends rest < 2 ^ 64
            simp only [List.length_append, List.length_singleton]
            omega
          have hns'' : noSendAfterClose (procStep s .send).closed rest = true := hns'
          obtain ⟨ha, hb, hc⟩ := ih (procStep s .send) hinv' hns'' hbound'
          rw [List.foldl_cons]
          refine ⟨ha, ?_, ?_⟩
          · rw [hb, hcount]
            show (s.allocated ++ [s.nextId]).length + countSends rest =
              s.allocated.length + (countSends rest + 1)
            simp only [List.length_append, List.length_singleton]
            omega
          · intro h
            apply hc
            rcases h with h | h
            · rcases List.mem_cons.mp h with h | h
              · cases h
              · exact Or.inl h
            · rw [hclosed] at h
              cases h
      | response id =>
          have hns' : noSendAfterClose s.closed rest = true := by
            cases hc : s.closed
            · rw [hc] at hns
              simpa [noSendAfterClose] using hns
            · rw [hc] at hns
              simpa [noSendAfterClose] using hns
          have hcount : countSends (ProcEv.response id :: rest) = countSends rest := by
            simp [countSends, List.countP_cons]
          rw [hcount] at hbound
          by_cases hmem : id ∈ s.pending
          · have hnotclosed : s.closed = false := by
              cases hc : s.closed
              · rfl
              · rw [h5 hc] at hmem
                cases hmem
            have hstep : procStep s (.response id) =
                { s with pending := s.pending.erase id, removed := s.removed ++ [id] } := by
              simp [procStep, hmem]
            have hinv' : ProcInv (procStep s (.response id)) := by
              rw [hstep]
              refine ⟨h1, h2, h3, ?_, ?_⟩
              · show s.inserted.Perm ((s.removed ++ [id]) ++ s.pending.erase id)
                have hp : s.pending.Perm (id :: s.pending.erase id) :=
                  List.perm_cons_erase hmem
                have hq := h4.trans (List.Perm.append_left s.removed hp)
                rwa [List.append_cons s.removed id (s.pending.erase id)] at hq
              · intro hc
                have hc2 : s.closed = true := hc
                rw [hnotclosed] at hc2
                cases hc2
            obtain ⟨ha, hb, hc⟩ := ih (procStep s (.response id)) hinv'
              (by rw [hstep]; exact hns') (by rw [hstep]; exact hbound)
            rw [List.foldl_cons]
            refine ⟨ha, ?_, ?_⟩
            · rw [hb, hstep, hcount]
            · intro h
              apply hc
              rcases h with h | h
              · rcases List.mem_cons.mp h with h | h
                · cases h
                · exact Or.inl h
              · rw [hstep]
                exact Or.inr h
          · have hstep : procStep s (.response id) = s := by
              simp [procStep, hmem]
            obtain ⟨ha, hb, hc⟩ := ih (procStep s (.response id))
              (by rw [hstep]; exact ⟨h1, h2, h3, h4, h5⟩)
              (by rw [hstep]; exact hns') (by rw [hstep]; exact hbound)
            rw [List.foldl_cons]
            refine ⟨ha, ?_, ?_⟩
            · rw [hb, hstep, hcount]
            · intro h
              apply hc
              rcases h with h | h
              · rcases List.mem_cons.mp h with h | h
                · cases h
                · exact Or.inl h
              · rw [hstep]
                exact Or.inr h
      | eof =>
          have hns' : noSendAfterClose true rest = true := by
            cases hc : s.closed
            · rw [hc] at hns
              simpa [noSendAfterClose] using hns
            · rw [hc] at hns
              simpa [noSendAfterClose] using hns
          have hcount : countSends (ProcEv.eof :: rest) = countSends rest := by
            simp [countSends, List.countP_cons]
          rw [hcount] at hbound
          have hinv' : ProcInv (procStep s .eof) := by
            refine ⟨h1, h2, h3, ?_, ?_⟩
            · show s.inserted.Perm ((s.removed ++ s.pending) ++ [])
              rw [List.append_nil]
              exact h4
            · intro _
              rfl
          obtain ⟨ha, hb, hc⟩ := ih (procStep s .eof) hinv' hns' hbound
          rw [List.foldl_cons]
          refine ⟨ha, ?_, fun _ => hc (Or.inr rfl)⟩
          rw [hb, hcount]
          rfl

/-- Counterexample to C5 as stated: in the linearized execution
`[eof, send]` — a `send_request` issued after the stdout reader has
drained — the sent id 1 is inserted into the pending map but never
removed, so the multiset of inserted ids does not equal the multiset of
removed ids. -/
theorem C5_counterexample :
    ProcEv.eof ∈ [ProcEv.eof, ProcEv.send] ∧
    (procRun [ProcEv.eof, ProcEv.send]).inserted = [1] ∧
    (procRun [ProcEv.eof, ProcEv.send]).removed = [] ∧
    ¬ (procRun [ProcEv.eof, ProcEv.send]).inserted.Perm
      (procRun [ProcEv.eof, ProcEv.send]).removed := by
  decide

/-- Claim C5 (amended): in any linearized execution with fewer than
`2^64` sends and no send after the reader has exited, the allocated ids
are exactly `[1, …, k]` — strictly increasing from 1 with no reuse — and
every send inserts exactly its allocated id; the pending map holds each
id at most once; no id is removed twice; and once stdout has closed and
the drain has run, the multiset of inserted ids equals the multiset of
removed ids. -/
theorem C5_amended (evs : List ProcEv)
    (hsend : countSends evs < 2 ^ 64)
    (hns : noSendAfterClose false evs = true) :
    (procRun evs).allocated = List.range' 1 (countSends evs) ∧
    (procRun evs).inserted = (procRun evs).allocated ∧
    (procRun evs).allocated.Pairwise (· < ·) ∧
    (procRun evs).pending.Nodup ∧
    (procRun evs).removed.Nodup ∧
    (ProcEv.eof ∈ evs → (procRun evs).inserted.Perm (procRun evs).removed) := by
  have hinv0 : ProcInv initProcState :=
    ⟨rfl, rfl, rfl, List.Perm.refl _, fun _ => rfl⟩
  have hrun : procRun evs = evs.foldl procStep initProcState := rfl
  obtain ⟨hinv, hlen, hclosed⟩ :=
    procStep_fold_inv evs initProcState hinv0 hns (by simpa [initProcState] using hsend)
  obtain ⟨h1, h2, h3, h4, h5⟩ := hinv
  rw [← hrun] at h1 h2 h3 h4 h5 hlen hclosed
  have hlen' : (procRun evs).allocated.length = countSends evs := by
    simpa [initProcState] using hlen
  have hall : (procRun evs).allocated = List.range' 1 (countSends evs) := by
    rw [← hlen']
    exact h2
  have hnodup_ins : (procRun evs).inserted.Nodup := by
    rw [h3, hall]
    exact List.nodup_range' 1 _
  have hnodup_app : ((procRun evs).removed ++ (procRun evs).pending).Nodup :=
    h4.nodup hnodup_ins
  refine ⟨hall, h3, ?_, ?_, ?_, ?_⟩
  · rw [hall]
    exact List.pairwise_lt_range' 1 _
  · exact hnodup_app.of_append_right
  · exact hnodup_app.of_append_left
  · intro hm
    have hc := hclosed (Or.inl hm)
    have hp := h5 hc
    rw [hp, List.append_nil] at h4
    exact h4

/-- Witness for the amended C5 on a concrete trace with an in-flight
request drained at close. -/
theorem C5_witness :
    countSends [ProcEv.send, ProcEv.send, ProcEv.response 1, ProcEv.eof] < 2 ^ 64 ∧
    (procRun [ProcEv.send, ProcEv.send, ProcEv.response 1, ProcEv.eof]).allocated =
      List.range' 1 (countSends [ProcEv.send, ProcEv.send, ProcEv.response 1, ProcEv.eof]) ∧
    (procRun [ProcEv.send, ProcEv.send, ProcEv.response 1, ProcEv.eof]).inserted.Perm
      (procRun [ProcEv.send, ProcEv.send, ProcEv.response 1, ProcEv.eof]).removed :=
  ⟨by decide,
   (C5_amended [ProcEv.send, ProcEv.send, ProcEv.response 1, ProcEv.eof]
     (by decide) (by decide)).1,
   (C5_amended [ProcEv.send, ProcEv.send, ProcEv.response 1, ProcEv.eof]
     (by decide) (by decide)).2.2.2.2.2 (by decide)⟩
